import Mathlib

/-!
Verification of the `salmon_rs` software renderer against its specification.

The development shallowly embeds the Rust sources:
  * `src/vec4.rs`            — RGBA color values and packing (`Vec4`, `to_argb`);
  * `src/software_canvas.rs` — the software canvas (`SoftwareCanvas`):
                               pixel writes, clearing, line rasterization,
                               surface initialization / resizing / presentation;
  * `src/timing.rs`          — frame timing (`FrameTiming`).

Modelling conventions:
  * Rust `f32` arithmetic is embedded as exact arithmetic.  Color channels
    are rationals (`ℚ`); the scaling and rasterization arithmetic of the
    canvas, whose inputs are machine integers, is embedded as the exact
    integer value of the corresponding real-arithmetic expression, with a
    bridging lemma stating the floor/rounding formula it implements.  All
    concrete inputs used in counterexamples are exactly representable in
    `f32` and the `f32` computations on them are exact and tie-free, so
    every divergence exhibited is a real divergence of the Rust code.
  * `u32` values are embedded as `ℕ`; casts `as u32` of non-negative `f32`
    values truncate toward zero, i.e. take floors.  The `as i32` casts in
    `draw_line` are value-preserving for all coordinates below `2^31`
    and are embedded as exact integer casts.
  * The platform layer (`softbuffer`, `winit`) is embedded as a `Platform`
    record of oracle answers: whether each platform call succeeds, the
    window size the host reports, and the target OS.
  * Rust panics (`expect`) are embedded as the `Outcome.panicked`
    constructor; a normal `Ok(())` return is `Outcome.ok`; the `Err(_)`
    return of the `anyhow::Result` signatures is `Outcome.err` (the
    embedded code never constructs it, mirroring the source).
  * The physical pixel buffer is embedded as an index-to-value function
    together with its length (`PixelBuffer`).
-/

/-! ## Color values: `src/vec4.rs` -/

/-- Embeds `Vec4` from `src/vec4.rs`: an RGBA color with four
floating-point (here: rational) channels. -/
structure Vec4 where
  r : ℚ
  g : ℚ
  b : ℚ
  a : ℚ

/-- Embeds Rust `f32::clamp(0.0, 1.0)`. -/
def clamp01 (q : ℚ) : ℚ := min (max q 0) 1

/-- Embeds one channel of `Vec4::to_argb`:
`(channel.clamp(0.0, 1.0) * 255.0) as u32`.  The `as u32` cast truncates
toward zero; the clamped product is non-negative, so this is a floor. -/
def channelByte (q : ℚ) : ℕ := (⌊clamp01 q * 255⌋).toNat

/-- Embeds `Vec4::to_argb` from `src/vec4.rs`: pack the four channel bytes
as `(a << 24) | (r << 16) | (g << 8) | b`. -/
def Vec4.to_argb (v : Vec4) : ℕ :=
  (channelByte v.a <<< 24) ||| (channelByte v.r <<< 16) |||
    (channelByte v.g <<< 8) ||| channelByte v.b

def Vec4.black : Vec4 := ⟨0, 0, 0, 1⟩

def Vec4.white : Vec4 := ⟨1, 1, 1, 1⟩

def Vec4.pink : Vec4 := ⟨1, 0, 1, 1⟩

def Vec4.blue : Vec4 := ⟨0, 0, 1, 1⟩

def Vec4.green : Vec4 := ⟨0, 1, 0, 1⟩

def Vec4.yellow : Vec4 := ⟨1, 1, 0, 1⟩

def Vec4.red : Vec4 := ⟨1, 0, 0, 1⟩

/-- Modelled from the spec: the packing the specification describes, with
each channel computed as `round(clamp(channel,0,1) * 255)` (round half
away from zero; the clamped channel is non-negative, where that rounding
is `⌊q + 1/2⌋`).  This definition follows the spec's words and is compared
against `Vec4.to_argb`, the embedding of the source. -/
def to_argb_spec (v : Vec4) : ℕ :=
  let byte : ℚ → ℕ := fun q => (⌊clamp01 q * 255 + 1/2⌋).toNat
  (byte v.a <<< 24) ||| (byte v.r <<< 16) ||| (byte v.g <<< 8) ||| byte v.b

lemma clamp01_nonneg (q : ℚ) : 0 ≤ clamp01 q := by
  unfold clamp01
  rcases le_total q 0 with h | h
  · simp [max_eq_right h]
  · simp [le_max_iff]

lemma clamp01_le_one (q : ℚ) : clamp01 q ≤ 1 := min_le_right _ _

lemma channelByte_le (q : ℚ) : channelByte q ≤ 255 := by
  unfold channelByte
  have h : clamp01 q * 255 ≤ 255 := by
    have := clamp01_le_one q
    nlinarith
  have h2 : (⌊clamp01 q * 255⌋ : ℤ) ≤ 255 :=
    le_trans (Int.floor_le_floor h) (by norm_num)
  omega

lemma channelByte_zero : channelByte 0 = 0 := by
  unfold channelByte clamp01
  norm_num

lemma channelByte_one : channelByte 1 = 255 := by
  unfold channelByte clamp01
  norm_num
  decide

/-- Embeds `y < 2^k → x * 2^k ||| y = x * 2^k + y`: bitwise-or across
disjoint bit ranges is addition. -/
lemma or_two_pow_add (k x y : ℕ) (hy : y < 2 ^ k) :
    x * 2 ^ k ||| y = x * 2 ^ k + y := by
  calc x * 2 ^ k ||| y = 2 ^ k * x ||| y := by rw [Nat.mul_comm]
    _ = 2 ^ k * x + y := (Nat.mul_add_lt_is_or hy x).symm
    _ = x * 2 ^ k + y := by ring

lemma argb_layout (a r g b : ℕ) (hr : r ≤ 255) (hg : g ≤ 255)
    (hb : b ≤ 255) :
    (a <<< 24) ||| (r <<< 16) ||| (g <<< 8) ||| b =
      a * 2 ^ 24 + r * 2 ^ 16 + g * 2 ^ 8 + b := by
  simp only [Nat.shiftLeft_eq, Nat.or_assoc]
  rw [or_two_pow_add 8 g b (by omega)]
  rw [or_two_pow_add 16 r (g * 2 ^ 8 + b) (by omega)]
  rw [or_two_pow_add 24 a (r * 2 ^ 16 + (g * 2 ^ 8 + b)) (by omega)]
  ring

/-- C2 counterexample: at the color `(0.5, 0, 0, 1)` (exactly representable
in `f32`, with exact `f32` arithmetic), the source packs the red channel as
the truncation `⌊0.5 * 255⌋ = 127`, while the spec's
`round(0.5 * 255) = 128`; the packed words differ
(`0xFF7F0000` vs `0xFF800000`), so `toPacked` does not round as claimed. -/
theorem C2_to_argb_truncates_not_rounds :
    Vec4.to_argb ⟨1/2, 0, 0, 1⟩ = 0xFF7F0000 ∧
    to_argb_spec ⟨1/2, 0, 0, 1⟩ = 0xFF800000 ∧
    Vec4.to_argb ⟨1/2, 0, 0, 1⟩ ≠ to_argb_spec ⟨1/2, 0, 0, 1⟩ := by
  have h1 : Vec4.to_argb ⟨1/2, 0, 0, 1⟩ = 0xFF7F0000 := by
    unfold Vec4.to_argb channelByte clamp01
    norm_num
    decide
  have h2 : to_argb_spec ⟨1/2, 0, 0, 1⟩ = 0xFF800000 := by
    unfold to_argb_spec clamp01
    norm_num
    decide
  refine ⟨h1, h2, by rw [h1, h2]; decide⟩

/-- C2 (amended): `to_argb` returns a 32-bit word with byte layout
alpha:red:green:blue (alpha in the most significant byte), where each
channel byte equals `trunc(clamp(channel,0,1) * 255)` — truncation toward
zero, not rounding; in particular `to_argb white = 0xFFFFFFFF` and
`to_argb red = 0xFFFF0000`. -/
theorem C2_to_argb_layout :
    (∀ v : Vec4,
      Vec4.to_argb v =
        channelByte v.a * 2 ^ 24 + channelByte v.r * 2 ^ 16 +
          channelByte v.g * 2 ^ 8 + channelByte v.b ∧
      channelByte v.a ≤ 255 ∧ channelByte v.r ≤ 255 ∧
      channelByte v.g ≤ 255 ∧ channelByte v.b ≤ 255) ∧
    Vec4.to_argb Vec4.white = 0xFFFFFFFF ∧
    Vec4.to_argb Vec4.red = 0xFFFF0000 := by
  constructor
  · intro v
    exact ⟨argb_layout _ _ _ _ (channelByte_le _) (channelByte_le _)
      (channelByte_le _), channelByte_le _, channelByte_le _,
      channelByte_le _, channelByte_le _⟩
  constructor
  · show Vec4.to_argb ⟨1, 1, 1, 1⟩ = 0xFFFFFFFF
    unfold Vec4.to_argb
    rw [channelByte_one]
    decide
  · show Vec4.to_argb ⟨1, 0, 0, 1⟩ = 0xFFFF0000
    unfold Vec4.to_argb
    rw [channelByte_one, channelByte_zero]
    decide

/-! ## Line rasterization: `SoftwareCanvas::draw_line` in `src/software_canvas.rs`

The rasterizer classifies the segment as steep when `|x1-x2| < |y1-y2|`
(computed on `i32` casts, value-preserving for canvas coordinates), swaps
x/y roles when steep, swaps the endpoints so the major axis runs upward,
then for each major-axis step computes the minor coordinate as
`round(start_y ± dy * progress)` with `progress = (x - start_x)/dx`
(`0` when `dx = 0`), and calls `set_pixel` with the roles un-swapped.
`linePoints` is the exact sequence of `set_pixel` argument pairs the loop
produces; `draw_line` below folds `set_pixel` over it. -/

/-- Embeds `let steep = (x1 as i32 - x2 as i32).abs() < (y1 as i32 - y2 as i32).abs()`. -/
def lineSteep (x1 y1 x2 y2 : ℕ) : Prop :=
  ((x1 : ℤ) - x2).natAbs < ((y1 : ℤ) - y2).natAbs

instance lineSteep.dec (x1 y1 x2 y2 : ℕ) : Decidable (lineSteep x1 y1 x2 y2) := by
  unfold lineSteep
  infer_instance

/-- Names the loop variables of `draw_line` after both swaps:
start/end coordinates along the iteration (major/minor) axes. -/
structure LineVars where
  sx : ℕ
  sy : ℕ
  ex : ℕ
  ey : ℕ

/-- Embeds the two swaps at the top of `draw_line`: swap x/y roles when
steep, then swap the endpoints when `start_x > end_x`. -/
def lineCanon (x1 y1 x2 y2 : ℕ) : LineVars :=
  let v : LineVars :=
    if lineSteep x1 y1 x2 y2 then ⟨y1, x1, y2, x2⟩ else ⟨x1, y1, x2, y2⟩
  if v.sx > v.ex then ⟨v.ex, v.ey, v.sx, v.sy⟩ else v

/-- Embeds the loop body's minor-coordinate computation
`(start_y as f32 ± dy as f32 * progress).round() as u32` with
`progress = (k as f32) / (dx as f32)` when `dx > 0` and `0.0` otherwise,
as its exact integer value: round-half-away-from-zero of a non-negative
value is `⌊q + 1/2⌋`, and `⌊sy ± dy*k/dx + 1/2⌋ = (2*sy*dx ± 2*dy*k + dx) / (2*dx)`
(see `lineMinor_eq_round_up` and `lineMinor_eq_round_down`). -/
def lineMinor (sy ey dy dx k : ℕ) : ℕ :=
  if 0 < dx then
    if ey > sy then (2 * sy * dx + 2 * dy * k + dx) / (2 * dx)
    else (2 * sy * dx + dx - 2 * dy * k) / (2 * dx)
  else sy

/-- Embeds the full iteration of `draw_line`: the list of logical points
passed to `set_pixel`, in loop order (roles un-swapped when steep). -/
def linePoints (x1 y1 x2 y2 : ℕ) : List (ℕ × ℕ) :=
  let v := lineCanon x1 y1 x2 y2
  let dx := v.ex - v.sx
  let dy := if v.ey > v.sy then v.ey - v.sy else v.sy - v.ey
  (List.range (dx + 1)).map fun k =>
    let y := lineMinor v.sy v.ey dy dx k
    if lineSteep x1 y1 x2 y2 then (y, v.sx + k) else (v.sx + k, y)

lemma natDiv_cast_floor (n d : ℕ) : ((n / d : ℕ) : ℤ) = ⌊(n : ℚ) / (d : ℚ)⌋ := by
  rw [show ((n : ℚ) / (d : ℚ)) = ((n : ℤ) : ℚ) / ((d : ℕ) : ℚ) by push_cast; ring]
  rw [Rat.floor_intCast_div_natCast]
  omega

/-- Fidelity of `lineMinor`, increasing branch: it is the round-half-up of
the exact interpolated value `sy + dy * (k / dx)`. -/
lemma lineMinor_eq_round_up (sy ey dy dx k : ℕ) (hdx : 0 < dx) (h : ey > sy) :
    (lineMinor sy ey dy dx k : ℤ) =
      ⌊(sy : ℚ) + (dy : ℚ) * ((k : ℚ) / (dx : ℚ)) + 1/2⌋ := by
  unfold lineMinor
  rw [if_pos hdx, if_pos h]
  have hq : (sy : ℚ) + (dy : ℚ) * ((k : ℚ) / (dx : ℚ)) + 1/2 =
      ((2 * sy * dx + 2 * dy * k + dx : ℕ) : ℚ) / ((2 * dx : ℕ) : ℚ) := by
    have hdx' : ((dx : ℚ)) ≠ 0 := by positivity
    field_simp
    ring
  rw [hq, ← natDiv_cast_floor]

/-- Fidelity of `lineMinor`, decreasing branch: it is the round-half-up of
the exact interpolated value `sy - dy * (k / dx)`, for the in-range
arguments the loop produces (`dy ≤ sy`, `k ≤ dx`). -/
lemma lineMinor_eq_round_down (sy ey dy dx k : ℕ) (hdx : 0 < dx)
    (h : ¬ ey > sy) (hdy : dy ≤ sy) (hk : k ≤ dx) :
    (lineMinor sy ey dy dx k : ℤ) =
      ⌊(sy : ℚ) - (dy : ℚ) * ((k : ℚ) / (dx : ℚ)) + 1/2⌋ := by
  unfold lineMinor
  rw [if_pos hdx, if_neg h]
  have hsub : 2 * dy * k ≤ 2 * sy * dx := by
    have := Nat.mul_le_mul hdy hk
    calc 2 * dy * k = 2 * (dy * k) := by ring
      _ ≤ 2 * (sy * dx) := by omega
      _ = 2 * sy * dx := by ring
  have hq : (sy : ℚ) - (dy : ℚ) * ((k : ℚ) / (dx : ℚ)) + 1/2 =
      ((2 * sy * dx + dx - 2 * dy * k : ℕ) : ℚ) / ((2 * dx : ℕ) : ℚ) := by
    have hdx' : ((dx : ℚ)) ≠ 0 := by positivity
    rw [Nat.cast_sub (by omega)]
    field_simp
    ring
  rw [hq, ← natDiv_cast_floor]

lemma lineSteep_symm (x1 y1 x2 y2 : ℕ) :
    lineSteep x1 y1 x2 y2 ↔ lineSteep x2 y2 x1 y1 := by
  unfold lineSteep
  omega

lemma lineCanon_symm (x1 y1 x2 y2 : ℕ) :
    lineCanon x1 y1 x2 y2 = lineCanon x2 y2 x1 y1 := by
  unfold lineCanon
  by_cases hs : lineSteep x1 y1 x2 y2
  · have hs' : lineSteep x2 y2 x1 y1 := (lineSteep_symm _ _ _ _).mp hs
    have hy : y1 ≠ y2 := by
      intro h
      subst h
      unfold lineSteep at hs
      omega
    simp only [if_pos hs, if_pos hs']
    rcases Nat.lt_or_ge y1 y2 with h | h
    · rw [if_neg (by simpa using Nat.not_lt.mpr (Nat.le_of_lt h)),
        if_pos (by simpa using h)]
    · have h' : y2 < y1 := by omega
      rw [if_pos (by simpa using h'), if_neg (by simpa using Nat.not_lt.mpr (Nat.le_of_lt h'))]
  · have hs' : ¬ lineSteep x2 y2 x1 y1 := fun h => hs ((lineSteep_symm _ _ _ _).mpr h)
    simp only [if_neg hs, if_neg hs']
    by_cases hx : x1 = x2
    · subst hx
      have hy : y1 = y2 := by
        unfold lineSteep at hs
        omega
      subst hy
      simp
    · rcases Nat.lt_or_ge x1 x2 with h | h
      · rw [if_neg (by simpa using Nat.not_lt.mpr (Nat.le_of_lt h)),
          if_pos (by simpa using h)]
      · have h' : x2 < x1 := by omega
        rw [if_pos (by simpa using h'), if_neg (by simpa using Nat.not_lt.mpr (Nat.le_of_lt h'))]

lemma lineCanon_le (x1 y1 x2 y2 : ℕ) :
    (lineCanon x1 y1 x2 y2).sx ≤ (lineCanon x1 y1 x2 y2).ex := by
  unfold lineCanon
  by_cases hs : lineSteep x1 y1 x2 y2
  · simp only [if_pos hs]
    split <;> simp_all <;> omega
  · simp only [if_neg hs]
    split <;> simp_all <;> omega

lemma lineCanon_dist (x1 y1 x2 y2 : ℕ) :
    Nat.dist (lineCanon x1 y1 x2 y2).sy (lineCanon x1 y1 x2 y2).ey ≤
      (lineCanon x1 y1 x2 y2).ex - (lineCanon x1 y1 x2 y2).sx := by
  unfold lineCanon
  by_cases hs : lineSteep x1 y1 x2 y2
  · unfold lineSteep at hs
    simp only [if_pos (show lineSteep x1 y1 x2 y2 from by unfold lineSteep; omega)]
    split <;> simp_all [Nat.dist] <;> omega
  · unfold lineSteep at hs
    simp only [if_neg (show ¬ lineSteep x1 y1 x2 y2 from by unfold lineSteep; omega)]
    split <;> simp_all [Nat.dist] <;> omega

lemma lineCanon_ends_steep (x1 y1 x2 y2 : ℕ) (hs : lineSteep x1 y1 x2 y2) :
    lineCanon x1 y1 x2 y2 = ⟨y1, x1, y2, x2⟩ ∨
      lineCanon x1 y1 x2 y2 = ⟨y2, x2, y1, x1⟩ := by
  unfold lineCanon
  simp only [if_pos hs]
  split
  · right; rfl
  · left; rfl

lemma lineCanon_ends_flat (x1 y1 x2 y2 : ℕ) (hs : ¬ lineSteep x1 y1 x2 y2) :
    lineCanon x1 y1 x2 y2 = ⟨x1, y1, x2, y2⟩ ∨
      lineCanon x1 y1 x2 y2 = ⟨x2, y2, x1, y1⟩ := by
  unfold lineCanon
  simp only [if_neg hs]
  split
  · right; rfl
  · left; rfl

lemma lineMinor_zero (sy ey dy dx : ℕ) : lineMinor sy ey dy dx 0 = sy := by
  unfold lineMinor
  rcases Nat.eq_zero_or_pos dx with h | h
  · simp [h]
  · rw [if_pos h]
    have key : (2 * sy * dx + dx) / (2 * dx) = sy := by
      rw [show 2 * sy * dx + dx = dx + sy * (2 * dx) from by ring,
        Nat.add_mul_div_right _ _ (by omega), Nat.div_eq_of_lt (by omega)]
      omega
    split <;> simp only [Nat.mul_zero, Nat.add_zero, Nat.sub_zero] <;> exact key

lemma lineMinor_last_up (sy ey dx : ℕ) (h : sy < ey) (hdx : 0 < dx) :
    lineMinor sy ey (ey - sy) dx dx = ey := by
  obtain ⟨d, rfl⟩ : ∃ d, ey = sy + d := ⟨ey - sy, by omega⟩
  unfold lineMinor
  rw [if_pos hdx, if_pos (by omega)]
  rw [show sy + d - sy = d from by omega]
  rw [show 2 * sy * dx + 2 * d * dx + dx = dx + (sy + d) * (2 * dx) from by ring]
  rw [Nat.add_mul_div_right _ _ (by omega), Nat.div_eq_of_lt (by omega)]
  omega

lemma lineMinor_last_down (sy ey dx : ℕ) (h : ¬ sy < ey) (hdx : 0 < dx) :
    lineMinor sy ey (sy - ey) dx dx = ey := by
  obtain ⟨d, rfl⟩ : ∃ d, sy = ey + d := ⟨sy - ey, by omega⟩
  unfold lineMinor
  rw [if_pos hdx, if_neg (show ¬ ey > ey + d from by omega)]
  rw [show ey + d - ey = d from by omega]
  rw [show 2 * (ey + d) * dx + dx - 2 * d * dx = dx + ey * (2 * dx) from by
    rw [show 2 * (ey + d) * dx + dx = dx + ey * (2 * dx) + 2 * d * dx from by ring]
    omega]
  rw [Nat.add_mul_div_right _ _ (by omega), Nat.div_eq_of_lt (by omega)]
  omega

lemma lineMinor_step_up (sy ey dy dx k : ℕ) (h : sy < ey) (hdx : 0 < dx)
    (hdy : dy ≤ dx) :
    lineMinor sy ey dy dx k ≤ lineMinor sy ey dy dx (k + 1) ∧
      lineMinor sy ey dy dx (k + 1) ≤ lineMinor sy ey dy dx k + 1 := by
  unfold lineMinor
  simp only [if_pos hdx, if_pos h]
  have e1 : 2 * dy * (k + 1) = 2 * dy * k + 2 * dy := by ring
  constructor
  · exact Nat.div_le_div_right (by omega)
  · calc (2 * sy * dx + 2 * dy * (k + 1) + dx) / (2 * dx)
        ≤ (2 * sy * dx + 2 * dy * k + dx + 2 * dx) / (2 * dx) :=
          Nat.div_le_div_right (by omega)
      _ = (2 * sy * dx + 2 * dy * k + dx) / (2 * dx) + 1 :=
          Nat.add_div_right _ (by omega)

lemma lineMinor_step_down (sy ey dy dx k : ℕ) (h : ¬ sy < ey) (hdx : 0 < dx)
    (hdy : dy ≤ dx) :
    lineMinor sy ey dy dx (k + 1) ≤ lineMinor sy ey dy dx k ∧
      lineMinor sy ey dy dx k ≤ lineMinor sy ey dy dx (k + 1) + 1 := by
  unfold lineMinor
  simp only [if_pos hdx, if_neg h]
  have e1 : 2 * dy * (k + 1) = 2 * dy * k + 2 * dy := by ring
  constructor
  · exact Nat.div_le_div_right (by omega)
  · calc (2 * sy * dx + dx - 2 * dy * k) / (2 * dx)
        ≤ (2 * sy * dx + dx - 2 * dy * (k + 1) + 2 * dx) / (2 * dx) :=
          Nat.div_le_div_right (by omega)
      _ = (2 * sy * dx + dx - 2 * dy * (k + 1)) / (2 * dx) + 1 :=
          Nat.add_div_right _ (by omega)

/-- C6: the rasterizer output is symmetric in its endpoints — swapping the
two logical endpoints yields the identical sequence, hence the identical
set, of rasterized logical points (`linePoints` is the exact sequence of
`set_pixel` calls `draw_line` makes). -/
theorem C6_draw_line_symmetric :
    ∀ x1 y1 x2 y2 : ℕ,
      linePoints x1 y1 x2 y2 = linePoints x2 y2 x1 y1 ∧
      ∀ p : ℕ × ℕ, (p ∈ linePoints x1 y1 x2 y2 ↔ p ∈ linePoints x2 y2 x1 y1) := by
  intro x1 y1 x2 y2
  have h : linePoints x1 y1 x2 y2 = linePoints x2 y2 x1 y1 := by
    unfold linePoints
    rw [lineCanon_symm]
    simp only [lineSteep_symm x1 y1 x2 y2]
  exact ⟨h, fun p => by rw [h]⟩

/-- C5: for every pair of logical endpoints the rasterized sequence
(`linePoints`, the exact sequence of `set_pixel` calls `draw_line` makes)
is nonempty, consecutive points are adjacent (each coordinate moves by at
most 1 per step — no gaps), it runs from one endpoint to the other,
independent of slope sign or octant; and the degenerate call
`drawLine(x,y,x,y,c)` rasterizes exactly the one logical point `(x,y)`. -/
theorem C5_draw_line_connected :
    (∀ x1 y1 x2 y2 : ℕ,
      linePoints x1 y1 x2 y2 ≠ [] ∧
      List.Chain' (fun p q : ℕ × ℕ =>
        Nat.dist p.1 q.1 ≤ 1 ∧ Nat.dist p.2 q.2 ≤ 1) (linePoints x1 y1 x2 y2) ∧
      (((linePoints x1 y1 x2 y2).head? = some (x1, y1) ∧
          (linePoints x1 y1 x2 y2).getLast? = some (x2, y2)) ∨
        ((linePoints x1 y1 x2 y2).head? = some (x2, y2) ∧
          (linePoints x1 y1 x2 y2).getLast? = some (x1, y1)))) ∧
    (∀ x y : ℕ, linePoints x y x y = [(x, y)]) := by
  constructor
  · intro x1 y1 x2 y2
    set v := lineCanon x1 y1 x2 y2 with hv
    set dx := v.ex - v.sx with hdx
    set dy := (if v.ey > v.sy then v.ey - v.sy else v.sy - v.ey) with hdy
    have hdydx : dy ≤ dx := by
      have hdist := lineCanon_dist x1 y1 x2 y2
      rw [← hv] at hdist
      simp only [Nat.dist] at hdist
      rw [hdy, hdx]
      split <;> omega
    have hsxex : v.sx ≤ v.ex := by
      have := lineCanon_le x1 y1 x2 y2
      rw [← hv] at this
      exact this
    have hlp : linePoints x1 y1 x2 y2 =
        (List.range (dx + 1)).map (fun k =>
          if lineSteep x1 y1 x2 y2 then (lineMinor v.sy v.ey dy dx k, v.sx + k)
          else (v.sx + k, lineMinor v.sy v.ey dy dx k)) := rfl
    have hminor0 : lineMinor v.sy v.ey dy dx 0 = v.sy := lineMinor_zero _ _ _ _
    have hminorlast : lineMinor v.sy v.ey dy dx dx = v.ey := by
      rcases Nat.eq_zero_or_pos dx with h0 | hpos
      · have hey : v.ey = v.sy := by
          rw [hdy] at hdydx
          rw [h0] at hdydx
          by_cases hc : v.ey > v.sy
          · rw [if_pos hc] at hdydx
            omega
          · rw [if_neg hc] at hdydx
            omega
        rw [hey, h0]
        unfold lineMinor
        simp
      · by_cases hc : v.ey > v.sy
        · rw [hdy, if_pos hc]
          exact lineMinor_last_up _ _ _ hc hpos
        · rw [hdy, if_neg hc]
          exact lineMinor_last_down _ _ _ (by omega) hpos
    refine ⟨?_, ?_, ?_⟩
    · rw [hlp]
      simp
    · rw [hlp, List.chain'_map, List.chain'_range_succ]
      intro k hk
      simp only [Nat.succ_eq_add_one]
      have hpos : 0 < dx := by omega
      have hstep : lineMinor v.sy v.ey dy dx k ≤ lineMinor v.sy v.ey dy dx (k + 1) + 1 ∧
          lineMinor v.sy v.ey dy dx (k + 1) ≤ lineMinor v.sy v.ey dy dx k + 1 := by
        by_cases hc : v.ey > v.sy
        · have := lineMinor_step_up v.sy v.ey dy dx k hc hpos hdydx
          omega
        · have := lineMinor_step_down v.sy v.ey dy dx k (by omega) hpos hdydx
          omega
      by_cases hs : lineSteep x1 y1 x2 y2
      · simp only [if_pos hs, Nat.dist]
        omega
      · simp only [if_neg hs, Nat.dist]
        omega
    · have hhead : (linePoints x1 y1 x2 y2).head? =
          some (if lineSteep x1 y1 x2 y2 then (v.sy, v.sx) else (v.sx, v.sy)) := by
        rw [hlp, List.head?_map, List.head?_range]
        simp only [Nat.add_eq_zero, Nat.succ_ne_zero, and_false, if_false, Option.map_some']
        by_cases hs : lineSteep x1 y1 x2 y2
        · simp [if_pos hs, hminor0]
        · simp [if_neg hs, hminor0]
      have hlast : (linePoints x1 y1 x2 y2).getLast? =
          some (if lineSteep x1 y1 x2 y2 then (v.ey, v.ex) else (v.ex, v.ey)) := by
        rw [hlp, List.getLast?_map, List.range_succ, List.getLast?_concat]
        simp only [Option.map_some']
        have hsum : v.sx + dx = v.ex := by omega
        by_cases hs : lineSteep x1 y1 x2 y2
        · simp [if_pos hs, hminorlast, hsum]
        · simp [if_neg hs, hminorlast, hsum]
      by_cases hs : lineSteep x1 y1 x2 y2
      · rw [if_pos hs] at hhead
        rw [if_pos hs] at hlast
        rcases lineCanon_ends_steep x1 y1 x2 y2 hs with hc | hc <;>
          rw [← hv] at hc
        · left
          rw [hhead, hlast, hc]
          exact ⟨rfl, rfl⟩
        · right
          rw [hhead, hlast, hc]
          exact ⟨rfl, rfl⟩
      · rw [if_neg hs] at hhead
        rw [if_neg hs] at hlast
        rcases lineCanon_ends_flat x1 y1 x2 y2 hs with hc | hc <;>
          rw [← hv] at hc
        · left
          rw [hhead, hlast, hc]
          exact ⟨rfl, rfl⟩
        · right
          rw [hhead, hlast, hc]
          exact ⟨rfl, rfl⟩
  · intro x y
    have hs : ¬ lineSteep x y x y := by
      unfold lineSteep
      omega
    unfold linePoints lineCanon
    simp only [if_neg hs, gt_iff_lt, lt_irrefl, if_false, Nat.sub_self]
    simp [lineMinor, List.range_succ]

/-! ## The software canvas: `src/software_canvas.rs` -/

/-- Embeds the physical pixel buffer of the surface: packed 32-bit colors
indexed row-major, as an index-to-value function plus length. -/
structure PixelBuffer where
  len : ℕ
  pix : ℕ → ℕ

/-- Embeds one store `buffer[index] = argb_color` guarded by the source's
`index < buffer.len()` check. -/
def bufWrite (b : PixelBuffer) (idx v : ℕ) : PixelBuffer :=
  if idx < b.len then { b with pix := fun i => if i = idx then v else b.pix i }
  else b

/-- Embeds the inner loop of `set_pixel`: stores along one surface row,
columns `[sx, sx+n)`, at the vertically flipped row `winH - 1 - yy`. -/
def writeRow (b : PixelBuffer) (winW winH yy sx n v : ℕ) : PixelBuffer :=
  (List.range' sx n).foldl
    (fun b2 xx => bufWrite b2 ((winH - 1 - yy) * winW + xx) v) b

/-- Embeds the double loop of `set_pixel`: surface rows
`start_y..end_y.min(winH)`, columns `start_x..end_x.min(winW)`. -/
def writeRect (b : PixelBuffer) (winW winH sx ex sy ey v : ℕ) : PixelBuffer :=
  (List.range' sy (min ey winH - sy)).foldl
    (fun b1 yy => writeRow b1 winW winH yy sx (min ex winW - sx) v) b

/-- Embeds the platform layer (`winit` window + `softbuffer`) as oracle
answers for each platform call the canvas makes. -/
structure Platform where
  contextOk : Bool
  surfaceOk : Bool
  innerSize : ℕ × ℕ
  resizeOk : Bool
  bufferOk : Bool
  presentOk : Bool
  isMacos : Bool

/-- Embeds the result of a canvas method returning `anyhow::Result<()>`:
`ok` is a normal `Ok(())` return carrying the updated state, `err` an
`Err(_)` return (the embedded methods never construct one, mirroring the
source), `panicked` a Rust panic raised by `expect`. -/
inductive Outcome (α : Type) where
  | ok : α → Outcome α
  | err : String → α → Outcome α
  | panicked : String → Outcome α
  deriving DecidableEq

/-- Tests whether an outcome is an `Err(_)` return. -/
def Outcome.isErrReturn {α : Type} : Outcome α → Bool
  | .err _ _ => true
  | _ => false

/-- Embeds the `SoftwareCanvas` struct: logical canvas size, cached window
size, whether context and surface exist, the cached surface size, and the
surface's pixel buffer (owned by the surface in the source). -/
structure CanvasState where
  canvas_size : ℕ × ℕ
  window_size : ℕ × ℕ
  hasContext : Bool
  hasSurface : Bool
  current_surface_size : Option (ℕ × ℕ)
  buffer : PixelBuffer

/-- Embeds `SoftwareCanvas::new(width, height)`. -/
def canvasNew (width height : ℕ) : CanvasState :=
  { canvas_size := (width, height), window_size := (0, 0),
    hasContext := false, hasSurface := false,
    current_surface_size := none, buffer := ⟨0, fun _ => 0⟩ }

/-- Embeds `SoftwareCanvas::initialize_graphics`.  The source signals
platform failure via `expect` (a panic), never via `Err`; on success it
eagerly sizes the surface iff the window reports a non-zero size, and
installs the context and surface in both cases, returning `Ok(())`.
A fresh surface buffer is embedded as zero-initialized with length
`width * height`. -/
def initialize_graphics (p : Platform) (st : CanvasState) : Outcome CanvasState :=
  if !p.contextOk then .panicked "Failed to create context"
  else if !p.surfaceOk then .panicked "Failed to create surface"
  else if 0 < p.innerSize.1 ∧ 0 < p.innerSize.2 then
    if !p.resizeOk then .panicked "Failed to resize surface"
    else .ok { st with hasContext := true, hasSurface := true,
                       current_surface_size :=
                         some (p.innerSize.1, p.innerSize.2),
                       window_size := (p.innerSize.1, p.innerSize.2),
                       buffer := ⟨p.innerSize.1 * p.innerSize.2, fun _ => 0⟩ }
  else .ok { st with hasContext := true, hasSurface := true }

/-- Embeds `SoftwareCanvas::set_pixel`: out-of-range logical coordinates
return early; otherwise, if a surface exists and `buffer_mut()` returns
`Ok`, the covered physical rectangle is computed from the real-valued
scale factors — in exact arithmetic
`start_x = ⌊x * (winW / canW)⌋ = x * winW / canW` (integer division), and
likewise for the other three bounds — and every covered pixel is stored
with the vertical flip `real_y = winH - 1 - surface_y`. -/
def set_pixel (p : Platform) (st : CanvasState) (x y : ℕ) (color : Vec4) :
    CanvasState :=
  if x ≥ st.canvas_size.1 ∨ y ≥ st.canvas_size.2 then st
  else if st.hasSurface && p.bufferOk then
    let winW := st.window_size.1
    let winH := st.window_size.2
    let start_x := x * winW / st.canvas_size.1
    let end_x := (x + 1) * winW / st.canvas_size.1
    let start_y := y * winH / st.canvas_size.2
    let end_y := (y + 1) * winH / st.canvas_size.2
    { st with buffer := writeRect st.buffer winW winH start_x end_x
                          start_y end_y (Vec4.to_argb color) }
  else st

/-- Embeds `SoftwareCanvas::clear`: if a surface exists and `buffer_mut()`
returns `Ok`, every cell of the buffer is overwritten with the packed
color; otherwise a silent no-op. -/
def clear (p : Platform) (st : CanvasState) (color : Vec4) : CanvasState :=
  if st.hasSurface && p.bufferOk then
    { st with buffer := ⟨st.buffer.len,
        fun i => if i < st.buffer.len then Vec4.to_argb color
                 else st.buffer.pix i⟩ }
  else st

/-- Embeds `SoftwareCanvas::draw_line`: fold `set_pixel` over the exact
sequence of points the loop produces (`linePoints`); the loop's debug
`println!` is I/O-only and not modelled. -/
def draw_line (p : Platform) (st : CanvasState) (x1 y1 x2 y2 : ℕ)
    (color : Vec4) : CanvasState :=
  (linePoints x1 y1 x2 y2).foldl (fun s pt => set_pixel p s pt.1 pt.2 color) st

/-- Embeds `SoftwareCanvas::render_frame` exactly as written: clear to
black, then a single `draw_line` from `(ax, ay) = (7, 3)` to
`(bx, by) = (12, 37)` in blue.  The source also binds `(cx, cy) = (62, 53)`
but never uses it and draws no other segment. -/
def render_frame (p : Platform) (st : CanvasState) : CanvasState :=
  let st1 := clear p st Vec4.black
  draw_line p st1 7 3 12 37 Vec4.blue

/-- Embeds `SoftwareCanvas::ensure_surface_size`: without a surface the
method returns `Ok(())` unchanged; otherwise it queries the window size
and resizes — panicking on platform failure, per the source's `expect` —
only when the cached size differs or unconditionally on macOS, and only
when both reported dimensions are non-zero.  A resize reallocates the
surface buffer (embedded as zero-initialized) and returns `Ok(())`. -/
def ensure_surface_size (p : Platform) (st : CanvasState) :
    Outcome CanvasState :=
  if st.hasSurface then
    if st.current_surface_size ≠ some (p.innerSize.1, p.innerSize.2) ∨
        p.isMacos = true then
      if 0 < p.innerSize.1 ∧ 0 < p.innerSize.2 then
        if !p.resizeOk then .panicked "Failed to resize surface"
        else .ok { st with current_surface_size :=
                             some (p.innerSize.1, p.innerSize.2),
                           window_size := (p.innerSize.1, p.innerSize.2),
                           buffer := ⟨p.innerSize.1 * p.innerSize.2,
                                      fun _ => 0⟩ }
      else .ok st
    else .ok st
  else .ok st

/-- Embeds `SoftwareCanvas::present_frame`: with a surface, `buffer_mut()`
then `present()`, each signalling failure via `expect` (a panic); the
state is unchanged and the value returned is always `Ok(())`. -/
def present_frame (p : Platform) (st : CanvasState) : Outcome CanvasState :=
  if st.hasSurface then
    if !p.bufferOk then .panicked "Failed to get surface buffer"
    else if !p.presentOk then .panicked "Failed to present buffer"
    else .ok st
  else .ok st

lemma bufWrite_len (b : PixelBuffer) (idx v : ℕ) :
    (bufWrite b idx v).len = b.len := by
  unfold bufWrite
  split <;> rfl

lemma bufWrite_pix (b : PixelBuffer) (idx v i : ℕ) :
    (bufWrite b idx v).pix i =
      if i = idx ∧ i < b.len then v else b.pix i := by
  unfold bufWrite
  by_cases h1 : idx < b.len
  · rw [if_pos h1]
    by_cases h2 : i = idx
    · rw [if_pos ⟨h2, by omega⟩]
      show (if i = idx then v else b.pix i) = v
      rw [if_pos h2]
    · rw [if_neg (by tauto)]
      show (if i = idx then v else b.pix i) = b.pix i
      rw [if_neg h2]
  · rw [if_neg h1, if_neg (by omega)]

lemma foldl_bufWrite_len (g : ℕ → ℕ) (v : ℕ) (l : List ℕ) (b : PixelBuffer) :
    (l.foldl (fun b2 xx => bufWrite b2 (g xx) v) b).len = b.len := by
  induction l generalizing b with
  | nil => rfl
  | cons x xs ih => rw [List.foldl_cons, ih, bufWrite_len]

lemma foldl_bufWrite_pix (g : ℕ → ℕ) (v : ℕ) (l : List ℕ) (b : PixelBuffer)
    (i : ℕ) :
    (l.foldl (fun b2 xx => bufWrite b2 (g xx) v) b).pix i =
      if ∃ xx ∈ l, g xx = i ∧ i < b.len then v else b.pix i := by
  induction l generalizing b with
  | nil => simp
  | cons x xs ih =>
    rw [List.foldl_cons, ih, bufWrite_len, bufWrite_pix]
    by_cases hxs : ∃ xx ∈ xs, g xx = i ∧ i < b.len
    · rw [if_pos hxs, if_pos (by
        rcases hxs with ⟨xx, hm, he⟩
        exact ⟨xx, List.mem_cons_of_mem _ hm, he⟩)]
    · rw [if_neg hxs]
      by_cases hx : i = g x ∧ i < b.len
      · rw [if_pos hx, if_pos ⟨x, List.mem_cons_self x xs, hx.1.symm, hx.2⟩]
      · rw [if_neg hx, if_neg (by
          intro hc
          rcases hc with ⟨xx, hm, he⟩
          rcases List.mem_cons.mp hm with h | h
          · exact hx ⟨(h ▸ he.1).symm, he.2⟩
          · exact hxs ⟨xx, h, he⟩)]

lemma writeRow_len (b : PixelBuffer) (winW winH yy sx n v : ℕ) :
    (writeRow b winW winH yy sx n v).len = b.len :=
  foldl_bufWrite_len _ _ _ _

lemma writeRow_pix (b : PixelBuffer) (winW winH yy sx n v i : ℕ) :
    (writeRow b winW winH yy sx n v).pix i =
      if ∃ xx ∈ List.range' sx n, (winH - 1 - yy) * winW + xx = i ∧ i < b.len
      then v else b.pix i :=
  foldl_bufWrite_pix _ _ _ _ _

lemma writeRect_len (b : PixelBuffer) (winW winH sx ex sy ey v : ℕ) :
    (writeRect b winW winH sx ex sy ey v).len = b.len := by
  unfold writeRect
  generalize List.range' sy (min ey winH - sy) = rows
  induction rows generalizing b with
  | nil => rfl
  | cons yy ys ih => rw [List.foldl_cons, ih, writeRow_len]

lemma writeRect_pix (b : PixelBuffer) (winW winH sx ex sy ey v i : ℕ) :
    (writeRect b winW winH sx ex sy ey v).pix i =
      if ∃ yy ∈ List.range' sy (min ey winH - sy),
           ∃ xx ∈ List.range' sx (min ex winW - sx),
             (winH - 1 - yy) * winW + xx = i ∧ i < b.len
      then v else b.pix i := by
  unfold writeRect
  generalize List.range' sy (min ey winH - sy) = rows
  induction rows generalizing b with
  | nil => simp
  | cons yy ys ih =>
    rw [List.foldl_cons, ih, writeRow_len, writeRow_pix]
    by_cases hys : ∃ yy2 ∈ ys, ∃ xx ∈ List.range' sx (min ex winW - sx),
        (winH - 1 - yy2) * winW + xx = i ∧ i < b.len
    · rw [if_pos hys, if_pos (by
        rcases hys with ⟨yy2, hm, he⟩
        exact ⟨yy2, List.mem_cons_of_mem _ hm, he⟩)]
    · rw [if_neg hys]
      by_cases hy : ∃ xx ∈ List.range' sx (min ex winW - sx),
          (winH - 1 - yy) * winW + xx = i ∧ i < b.len
      · rw [if_pos hy, if_pos ⟨yy, List.mem_cons_self yy ys, hy⟩]
      · rw [if_neg hy, if_neg (by
          intro hc
          rcases hc with ⟨yy2, hm, he⟩
          rcases List.mem_cons.mp hm with h | h
          · exact hy (h ▸ he)
          · exact hys ⟨yy2, h, he⟩)]

lemma mem_range'_iff (s n m : ℕ) : m ∈ List.range' s n ↔ s ≤ m ∧ m < s + n := by
  rw [List.mem_range']
  constructor
  · rintro ⟨i, hi, rfl⟩
    omega
  · intro h
    exact ⟨m - s, by omega, by omega⟩

lemma block_nonempty (x W W' : ℕ) (hx : x < W) (hW : W ≤ W') :
    x * W' / W < min ((x + 1) * W' / W) W' := by
  have hW0 : 0 < W := by omega
  have hW'0 : 0 < W' := by omega
  have h1 : x * W' / W < (x + 1) * W' / W := by
    have e : (x + 1) * W' = x * W' + W' := by ring
    have h3 : (x * W' + W) / W = x * W' / W + 1 := Nat.add_div_right _ hW0
    have h4 : (x * W' + W) / W ≤ (x * W' + W') / W :=
      Nat.div_le_div_right (by omega)
    rw [e]
    omega
  have h5 : x * W' / W < W' := by
    rw [Nat.div_lt_iff_lt_mul hW0]
    calc x * W' < W * W' := Nat.mul_lt_mul_of_pos_right hx hW'0
      _ = W' * W := by ring
  omega

lemma rect_mem_iff (W' H' sx ex sy ey i : ℕ)
    (hsx : sx ≤ min ex W') (hsy : sy ≤ min ey H') (hW'0 : 0 < W') :
    (∃ yy ∈ List.range' sy (min ey H' - sy),
       ∃ xx ∈ List.range' sx (min ex W' - sx),
         (H' - 1 - yy) * W' + xx = i ∧ i < W' * H') ↔
    (i / W' < H' ∧ sx ≤ i % W' ∧ i % W' < min ex W' ∧
      sy ≤ H' - 1 - i / W' ∧ H' - 1 - i / W' < min ey H') := by
  constructor
  · rintro ⟨yy, hyy, xx, hxx, hi, hilen⟩
    rw [mem_range'_iff] at hyy hxx
    have hyyH : yy < H' := by omega
    have hxxW : xx < W' := by omega
    have hq : i / W' = H' - 1 - yy := by
      rw [← hi, show (H' - 1 - yy) * W' + xx = xx + (H' - 1 - yy) * W' from by
        ring, Nat.add_mul_div_right _ _ hW'0, Nat.div_eq_of_lt hxxW]
      omega
    have hr : i % W' = xx := by
      rw [← hi, show (H' - 1 - yy) * W' + xx = xx + (H' - 1 - yy) * W' from by
        ring, Nat.add_mul_mod_self_right, Nat.mod_eq_of_lt hxxW]
    refine ⟨by omega, by omega, by omega, by omega, by omega⟩
  · rintro ⟨h1, h2, h3, h4, h5⟩
    have hrow : H' - 1 - (H' - 1 - i / W') = i / W' := by omega
    refine ⟨H' - 1 - i / W', ?_, i % W', ?_, ?_, ?_⟩
    · rw [mem_range'_iff]
      omega
    · rw [mem_range'_iff]
      omega
    · rw [hrow, Nat.mul_comm]
      exact Nat.div_add_mod i W'
    · rw [Nat.mul_comm]
      exact (Nat.div_lt_iff_lt_mul hW'0).mp h1

/-- C4: on an initialized canvas with logical size `(W, H)`, physical size
`(W', H')`, `W' ≥ W`, `H' ≥ H`, an in-range `set_pixel (x, y, c)` writes
`c.to_argb` to exactly the non-empty axis-aligned physical rectangle with
columns `[⌊x*W'/W⌋, ⌊(x+1)*W'/W⌋)` clipped to `[0, W')` and the symmetric
row range with the vertical flip `physicalRow = H' - 1 - computedRow`
applied, leaving every other physical pixel unchanged; an out-of-range
`set_pixel` leaves the state entirely unchanged.  (In exact arithmetic
`⌊x * W' / W⌋` is the integer division `x * W' / W`.) -/
theorem C4_set_pixel_rect (p : Platform) (st : CanvasState)
    (x y W H W' H' : ℕ) (c : Vec4)
    (hck : st.canvas_size = (W, H)) (hwk : st.window_size = (W', H'))
    (hs : st.hasSurface = true) (hb : p.bufferOk = true)
    (hlen : st.buffer.len = W' * H') (hW : W ≤ W') (hH : H ≤ H') :
    (x < W → y < H →
      ((set_pixel p st x y c).buffer.len = st.buffer.len ∧
       x * W' / W < min ((x + 1) * W' / W) W' ∧
       y * H' / H < min ((y + 1) * H' / H) H' ∧
       (∀ i, (set_pixel p st x y c).buffer.pix i =
         if i / W' < H' ∧
            x * W' / W ≤ i % W' ∧ i % W' < min ((x + 1) * W' / W) W' ∧
            y * H' / H ≤ H' - 1 - i / W' ∧
            H' - 1 - i / W' < min ((y + 1) * H' / H) H'
         then Vec4.to_argb c else st.buffer.pix i))) ∧
    (W ≤ x ∨ H ≤ y → set_pixel p st x y c = st) := by
  constructor
  · intro hx hy
    have hW'0 : 0 < W' := by omega
    have hcol := block_nonempty x W W' hx hW
    have hrow := block_nonempty y H H' hy hH
    have hsp : (set_pixel p st x y c).buffer =
        writeRect st.buffer W' H' (x * W' / W) ((x + 1) * W' / W)
          (y * H' / H) ((y + 1) * H' / H) (Vec4.to_argb c) := by
      unfold set_pixel
      rw [hck, hwk, hs, hb]
      rw [if_neg (show ¬(x ≥ (W, H).1 ∨ y ≥ (W, H).2) from
        show ¬(x ≥ W ∨ y ≥ H) from by omega)]
      rw [if_pos (show (true && true) = true from rfl)]
    rw [hsp]
    refine ⟨writeRect_len _ _ _ _ _ _ _ _, hcol, hrow, ?_⟩
    intro i
    rw [writeRect_pix, hlen]
    rw [if_congr (rect_mem_iff W' H' (x * W' / W) ((x + 1) * W' / W)
      (y * H' / H) ((y + 1) * H' / H) i (by omega) (by omega) hW'0) rfl rfl]
  · intro h
    unfold set_pixel
    rw [hck]
    rw [if_pos (show x ≥ (W, H).1 ∨ y ≥ (W, H).2 from
      show x ≥ W ∨ y ≥ H from by omega)]

/-- C4 witness: a concrete instance — logical `4×4` canvas over a `12×8`
physical surface, `set_pixel (2, 1, red)`; the theorem applies with every
hypothesis discharged on concrete values. -/
theorem C4_set_pixel_rect_witness :
    (let st : CanvasState :=
      { canvas_size := (4, 4), window_size := (12, 8), hasContext := true,
        hasSurface := true, current_surface_size := some (12, 8),
        buffer := ⟨96, fun _ => 0⟩ }
     let p : Platform :=
      { contextOk := true, surfaceOk := true, innerSize := (12, 8),
        resizeOk := true, bufferOk := true, presentOk := true,
        isMacos := false }
     (2 < 4 → 1 < 4 →
       ((set_pixel p st 2 1 Vec4.red).buffer.len = st.buffer.len ∧
        2 * 12 / 4 < min ((2 + 1) * 12 / 4) 12 ∧
        1 * 8 / 4 < min ((1 + 1) * 8 / 4) 8 ∧
        (∀ i, (set_pixel p st 2 1 Vec4.red).buffer.pix i =
          if i / 12 < 8 ∧
             2 * 12 / 4 ≤ i % 12 ∧ i % 12 < min ((2 + 1) * 12 / 4) 12 ∧
             1 * 8 / 4 ≤ 8 - 1 - i / 12 ∧
             8 - 1 - i / 12 < min ((1 + 1) * 8 / 4) 8
          then Vec4.to_argb Vec4.red else st.buffer.pix i))) ∧
     (4 ≤ 2 ∨ 4 ≤ 1 → set_pixel p st 2 1 Vec4.red = st)) :=
  C4_set_pixel_rect _ _ 2 1 4 4 12 8 Vec4.red rfl rfl rfl rfl rfl
    (by decide) (by decide)

lemma set_pixel_no_surface (p : Platform) (st : CanvasState) (x y : ℕ)
    (c : Vec4) (h : st.hasSurface = false) : set_pixel p st x y c = st := by
  unfold set_pixel
  by_cases h1 : x ≥ st.canvas_size.1 ∨ y ≥ st.canvas_size.2
  · rw [if_pos h1]
  · rw [if_neg h1, h]
    rw [if_neg (by simp)]

lemma clear_no_surface (p : Platform) (st : CanvasState) (c : Vec4)
    (h : st.hasSurface = false) : clear p st c = st := by
  unfold clear
  rw [h]
  rw [if_neg (by simp)]

lemma draw_line_no_surface (p : Platform) (st : CanvasState)
    (x1 y1 x2 y2 : ℕ) (c : Vec4) (h : st.hasSurface = false) :
    draw_line p st x1 y1 x2 y2 c = st := by
  unfold draw_line
  generalize linePoints x1 y1 x2 y2 = pts
  induction pts generalizing st with
  | nil => rfl
  | cons q qs ih =>
    rw [List.foldl_cons, set_pixel_no_surface _ _ _ _ _ h]
    exact ih st h

/-- C10: before `initialize_graphics` has ever run (no surface exists),
every canvas operation is total and harmless: `set_pixel`, `clear` and
`draw_line` leave the state unchanged, and `ensure_surface_size` and
`present_frame` leave the state unchanged and return `Ok(())` rather than
an error. -/
theorem C10_uninitialized_noop (p : Platform) (st : CanvasState)
    (x y x1 y1 x2 y2 : ℕ) (c : Vec4) (h : st.hasSurface = false) :
    set_pixel p st x y c = st ∧
    clear p st c = st ∧
    draw_line p st x1 y1 x2 y2 c = st ∧
    ensure_surface_size p st = .ok st ∧
    present_frame p st = .ok st := by
  refine ⟨set_pixel_no_surface _ _ _ _ _ h, clear_no_surface _ _ _ h,
    draw_line_no_surface _ _ _ _ _ _ _ h, ?_, ?_⟩
  · unfold ensure_surface_size
    rw [h]
    rw [if_neg (by simp)]
  · unfold present_frame
    rw [h]
    rw [if_neg (by simp)]

/-- C10 witness: the freshly constructed canvas `SoftwareCanvas::new(64, 64)`
has no surface, and every operation on it is a no-op. -/
theorem C10_uninitialized_noop_witness :
    (canvasNew 64 64).hasSurface = false ∧
    (set_pixel ⟨true, true, (640, 640), true, true, true, false⟩
        (canvasNew 64 64) 3 5 Vec4.red = canvasNew 64 64 ∧
     clear ⟨true, true, (640, 640), true, true, true, false⟩
        (canvasNew 64 64) Vec4.red = canvasNew 64 64 ∧
     draw_line ⟨true, true, (640, 640), true, true, true, false⟩
        (canvasNew 64 64) 1 2 3 4 Vec4.red = canvasNew 64 64 ∧
     ensure_surface_size ⟨true, true, (640, 640), true, true, true, false⟩
        (canvasNew 64 64) = .ok (canvasNew 64 64) ∧
     present_frame ⟨true, true, (640, 640), true, true, true, false⟩
        (canvasNew 64 64) = .ok (canvasNew 64 64)) :=
  ⟨rfl, C10_uninitialized_noop _ _ 3 5 1 2 3 4 Vec4.red rfl⟩

/-- States the C9 invariant: the cached physical surface size, when
present, has both dimensions positive. -/
def sizeInv (st : CanvasState) : Prop :=
  ∀ w h, st.current_surface_size = some (w, h) → 0 < w ∧ 0 < h

/-- C9: the cached surface size is only ever updated to positive values —
`initialize_graphics` and `ensure_surface_size` preserve the invariant on
every normal return — and an `ensure_surface_size` call for which the
window reports a zero dimension performs no resize, leaves the state
(cached size and buffer included) unchanged, and returns success. -/
theorem C9_surface_size_positive (p : Platform) (st : CanvasState)
    (hinv : sizeInv st) :
    (∀ st', initialize_graphics p st = .ok st' → sizeInv st') ∧
    (∀ st', ensure_surface_size p st = .ok st' → sizeInv st') ∧
    (p.innerSize.1 = 0 ∨ p.innerSize.2 = 0 →
      ensure_surface_size p st = .ok st) := by
  refine ⟨?_, ?_, ?_⟩
  · intro st' hok
    unfold initialize_graphics at hok
    split at hok
    · exact absurd hok (by simp)
    · split at hok
      · exact absurd hok (by simp)
      · split at hok
        · split at hok
          · exact absurd hok (by simp)
          · rw [Outcome.ok.injEq] at hok
            subst hok
            intro w h heq
            simp only [Option.some.injEq, Prod.mk.injEq] at heq
            omega
        · rw [Outcome.ok.injEq] at hok
          subst hok
          exact hinv
  · intro st' hok
    unfold ensure_surface_size at hok
    split at hok
    · split at hok
      · split at hok
        · split at hok
          · exact absurd hok (by simp)
          · rw [Outcome.ok.injEq] at hok
            subst hok
            intro w h heq
            simp only [Option.some.injEq, Prod.mk.injEq] at heq
            omega
        · rw [Outcome.ok.injEq] at hok
          subst hok
          exact hinv
      · rw [Outcome.ok.injEq] at hok
        subst hok
        exact hinv
    · rw [Outcome.ok.injEq] at hok
      subst hok
      exact hinv
  · intro hzero
    unfold ensure_surface_size
    split
    · split
      · rw [if_neg (by omega)]
      · rfl
    · rfl

/-- C9 witness: on an initialized canvas satisfying the invariant, with a
window reporting `640×0`, the theorem applies: the resize is a successful
no-op and the invariant is preserved. -/
theorem C9_surface_size_positive_witness :
    (let st : CanvasState :=
      { canvas_size := (64, 64), window_size := (640, 640),
        hasContext := true, hasSurface := true,
        current_surface_size := some (640, 640),
        buffer := ⟨640 * 640, fun _ => 0⟩ }
     let p : Platform :=
      { contextOk := true, surfaceOk := true, innerSize := (640, 0),
        resizeOk := true, bufferOk := true, presentOk := true,
        isMacos := false }
     (∀ st', initialize_graphics p st = .ok st' → sizeInv st') ∧
     (∀ st', ensure_surface_size p st = .ok st' → sizeInv st') ∧
     (p.innerSize.1 = 0 ∨ p.innerSize.2 = 0 →
       ensure_surface_size p st = .ok st)) :=
  C9_surface_size_positive _ _ (fun w h heq => by
    simp only [Option.some.injEq, Prod.mk.injEq] at heq
    omega)

/-- C3 counterexample: a platform whose `present` call fails makes
`present_frame` panic (`expect("Failed to present buffer")`) instead of
returning a `PresentError` result, and a platform whose context creation
fails makes `initialize_graphics` panic instead of returning a
`GraphicsInitError` result, and a failing resize makes
`ensure_surface_size` panic instead of returning a `SurfaceResizeError`
result — no failure is ever reported to the caller as an error return. -/
theorem C3_failures_panic_not_error_result :
    (present_frame
        ⟨true, true, (640, 640), true, true, false, false⟩
        ⟨(64, 64), (640, 640), true, true, some (640, 640),
          ⟨640 * 640, fun _ => 0⟩⟩ =
      .panicked "Failed to present buffer") ∧
    (present_frame
        ⟨true, true, (640, 640), true, true, false, false⟩
        ⟨(64, 64), (640, 640), true, true, some (640, 640),
          ⟨640 * 640, fun _ => 0⟩⟩).isErrReturn = false ∧
    (initialize_graphics
        ⟨false, true, (640, 640), true, true, true, false⟩
        (canvasNew 64 64) =
      .panicked "Failed to create context") ∧
    (initialize_graphics
        ⟨false, true, (640, 640), true, true, true, false⟩
        (canvasNew 64 64)).isErrReturn = false ∧
    (ensure_surface_size
        ⟨true, true, (320, 320), false, true, true, false⟩
        ⟨(64, 64), (640, 640), true, true, some (640, 640),
          ⟨640 * 640, fun _ => 0⟩⟩ =
      .panicked "Failed to resize surface") ∧
    (ensure_surface_size
        ⟨true, true, (320, 320), false, true, true, false⟩
        ⟨(64, 64), (640, 640), true, true, some (640, 640),
          ⟨640 * 640, fun _ => 0⟩⟩).isErrReturn = false := by
  exact ⟨rfl, rfl, rfl, rfl, rfl, rfl⟩

/-- C3 (amended): none of `initialize_graphics`, `ensure_surface_size`,
`present_frame` ever returns an error result — platform failures abort via
panic (the source's `expect`) instead of being returned to the caller; the
zero-size resize request and the out-of-range pixel write remain silent
no-ops. -/
theorem C3_no_error_returns (p : Platform) (st : CanvasState) :
    (initialize_graphics p st).isErrReturn = false ∧
    (ensure_surface_size p st).isErrReturn = false ∧
    (present_frame p st).isErrReturn = false ∧
    (st.hasSurface = true → p.bufferOk = true → p.presentOk = false →
      present_frame p st = .panicked "Failed to present buffer") ∧
    (p.contextOk = false →
      initialize_graphics p st = .panicked "Failed to create context") ∧
    ((p.innerSize.1 = 0 ∨ p.innerSize.2 = 0) →
      ensure_surface_size p st = .ok st) ∧
    (∀ x y c, st.canvas_size.1 ≤ x ∨ st.canvas_size.2 ≤ y →
      set_pixel p st x y c = st) := by
  refine ⟨?_, ?_, ?_, ?_, ?_, ?_, ?_⟩
  · unfold initialize_graphics
    split
    · rfl
    · split
      · rfl
      · split
        · split <;> rfl
        · rfl
  · unfold ensure_surface_size
    split
    · split
      · split
        · split <;> rfl
        · rfl
      · rfl
    · rfl
  · unfold present_frame
    split
    · split
      · rfl
      · split <;> rfl
    · rfl
  · intro hs hb hp
    unfold present_frame
    rw [if_pos hs, if_neg (by rw [hb]; simp), if_pos (by rw [hp]; rfl)]
  · intro hc
    unfold initialize_graphics
    rw [if_pos (by rw [hc]; rfl)]
  · intro hzero
    unfold ensure_surface_size
    split
    · split
      · rw [if_neg (by omega)]
      · rfl
    · rfl
  · intro x y c h
    unfold set_pixel
    rw [if_pos (by omega)]

/-- C3 amended-claim witness: the component facts at concrete inputs — an
all-succeeding platform on a fresh canvas never yields an error return,
and with the platform of the counterexample the panic and no-op cases
fire as stated. -/
theorem C3_no_error_returns_witness :
    ((initialize_graphics ⟨true, true, (640, 640), true, true, true, false⟩
        (canvasNew 64 64)).isErrReturn = false ∧
     (ensure_surface_size ⟨true, true, (640, 640), true, true, true, false⟩
        (canvasNew 64 64)).isErrReturn = false ∧
     (present_frame ⟨true, true, (640, 640), true, true, true, false⟩
        (canvasNew 64 64)).isErrReturn = false ∧
     ((canvasNew 64 64).hasSurface = true →
       (true : Bool) = true → (true : Bool) = false →
       present_frame ⟨true, true, (640, 640), true, true, true, false⟩
         (canvasNew 64 64) = .panicked "Failed to present buffer") ∧
     ((true : Bool) = false →
       initialize_graphics ⟨true, true, (640, 640), true, true, true, false⟩
         (canvasNew 64 64) = .panicked "Failed to create context") ∧
     (((640 : ℕ) = 0 ∨ (640 : ℕ) = 0) →
       ensure_surface_size ⟨true, true, (640, 640), true, true, true, false⟩
         (canvasNew 64 64) = .ok (canvasNew 64 64)) ∧
     (∀ x y c, (canvasNew 64 64).canvas_size.1 ≤ x ∨
         (canvasNew 64 64).canvas_size.2 ≤ y →
       set_pixel ⟨true, true, (640, 640), true, true, true, false⟩
         (canvasNew 64 64) x y c = canvasNew 64 64)) :=
  C3_no_error_returns ⟨true, true, (640, 640), true, true, true, false⟩
    (canvasNew 64 64)

lemma argb_black : Vec4.to_argb Vec4.black = 0xFF000000 := by
  show Vec4.to_argb ⟨0, 0, 0, 1⟩ = 0xFF000000
  unfold Vec4.to_argb
  rw [show (⟨0, 0, 0, 1⟩ : Vec4).a = 1 from rfl,
    show (⟨0, 0, 0, 1⟩ : Vec4).r = 0 from rfl,
    show (⟨0, 0, 0, 1⟩ : Vec4).g = 0 from rfl,
    show (⟨0, 0, 0, 1⟩ : Vec4).b = 0 from rfl,
    channelByte_one, channelByte_zero]
  decide

lemma argb_blue : Vec4.to_argb Vec4.blue = 0xFF0000FF := by
  show Vec4.to_argb ⟨0, 0, 1, 1⟩ = 0xFF0000FF
  unfold Vec4.to_argb
  rw [show (⟨0, 0, 1, 1⟩ : Vec4).a = 1 from rfl,
    show (⟨0, 0, 1, 1⟩ : Vec4).r = 0 from rfl,
    show (⟨0, 0, 1, 1⟩ : Vec4).g = 0 from rfl,
    show (⟨0, 0, 1, 1⟩ : Vec4).b = 1 from rfl,
    channelByte_one, channelByte_zero]
  decide

/-- A platform on which every call succeeds and the window reports
`640×640` (the demo's intended size). -/
def pAllOk : Platform :=
  ⟨true, true, (640, 640), true, true, true, false⟩

/-- The end-to-end demo state: a `64×64` logical canvas initialized over a
`640×640` physical surface. -/
def stDemo : CanvasState :=
  ⟨(64, 64), (640, 640), true, true, some (640, 640),
    ⟨640 * 640, fun _ => 0⟩⟩


/-- States that physical pixel `i` lies in the block of physical pixels
that `set_pixel` at logical `(x, y)` covers, for a canvas with logical
size `can`, physical (window) size `win`, and buffer length `L`:
the in-range check plus membership in the scaled, clipped, vertically
flipped rectangle of the source's double loop. -/
def coveredBy (can win : ℕ × ℕ) (L x y i : ℕ) : Prop :=
  x < can.1 ∧ y < can.2 ∧
  ∃ yy ∈ List.range' (y * win.2 / can.2)
      (min ((y + 1) * win.2 / can.2) win.2 - y * win.2 / can.2),
    ∃ xx ∈ List.range' (x * win.1 / can.1)
        (min ((x + 1) * win.1 / can.1) win.1 - x * win.1 / can.1),
      (win.2 - 1 - yy) * win.1 + xx = i ∧ i < L

instance coveredBy.dec (can win : ℕ × ℕ) (L x y i : ℕ) :
    Decidable (coveredBy can win L x y i) := by
  unfold coveredBy
  infer_instance

lemma set_pixel_sizes (p : Platform) (st : CanvasState) (x y : ℕ)
    (c : Vec4) :
    (set_pixel p st x y c).canvas_size = st.canvas_size ∧
    (set_pixel p st x y c).window_size = st.window_size ∧
    (set_pixel p st x y c).hasSurface = st.hasSurface ∧
    (set_pixel p st x y c).buffer.len = st.buffer.len := by
  unfold set_pixel
  split
  · exact ⟨rfl, rfl, rfl, rfl⟩
  · split
    · exact ⟨rfl, rfl, rfl, writeRect_len _ _ _ _ _ _ _ _⟩
    · exact ⟨rfl, rfl, rfl, rfl⟩

lemma set_pixel_pix (p : Platform) (st : CanvasState) (x y : ℕ) (c : Vec4)
    (i : ℕ) (hs : st.hasSurface = true) (hb : p.bufferOk = true) :
    (set_pixel p st x y c).buffer.pix i =
      if coveredBy st.canvas_size st.window_size st.buffer.len x y i
      then Vec4.to_argb c else st.buffer.pix i := by
  unfold set_pixel
  by_cases h1 : x ≥ st.canvas_size.1 ∨ y ≥ st.canvas_size.2
  · rw [if_pos h1, if_neg (by unfold coveredBy; omega)]
  · rw [if_neg h1, hs, hb, if_pos (show (true && true) = true from rfl)]
    show (writeRect st.buffer _ _ _ _ _ _ _).pix i = _
    rw [writeRect_pix]
    unfold coveredBy
    by_cases h2 : ∃ yy ∈ List.range' (y * st.window_size.2 / st.canvas_size.2)
        (min ((y + 1) * st.window_size.2 / st.canvas_size.2) st.window_size.2 -
          y * st.window_size.2 / st.canvas_size.2),
      ∃ xx ∈ List.range' (x * st.window_size.1 / st.canvas_size.1)
          (min ((x + 1) * st.window_size.1 / st.canvas_size.1)
            st.window_size.1 - x * st.window_size.1 / st.canvas_size.1),
        (st.window_size.2 - 1 - yy) * st.window_size.1 + xx = i ∧
          i < st.buffer.len
    · rw [if_pos h2, if_pos ⟨by omega, by omega, h2⟩]
    · rw [if_neg h2, if_neg (by
        intro hc
        exact h2 hc.2.2)]

lemma draw_line_pix (p : Platform) (st : CanvasState) (x1 y1 x2 y2 : ℕ)
    (c : Vec4) (i : ℕ) (hs : st.hasSurface = true) (hb : p.bufferOk = true) :
    (draw_line p st x1 y1 x2 y2 c).buffer.pix i =
      if ∃ pt ∈ linePoints x1 y1 x2 y2,
           coveredBy st.canvas_size st.window_size st.buffer.len pt.1 pt.2 i
      then Vec4.to_argb c else st.buffer.pix i := by
  unfold draw_line
  generalize linePoints x1 y1 x2 y2 = pts
  induction pts generalizing st with
  | nil => simp
  | cons q qs ih =>
    rw [List.foldl_cons]
    have hsz := set_pixel_sizes p st q.1 q.2 c
    rw [ih _ (by rw [hsz.2.2.1]; exact hs)]
    rw [hsz.1, hsz.2.1, hsz.2.2.2]
    rw [set_pixel_pix _ _ _ _ _ _ hs hb]
    by_cases hqs : ∃ pt ∈ qs,
        coveredBy st.canvas_size st.window_size st.buffer.len pt.1 pt.2 i
    · rw [if_pos hqs, if_pos (by
        rcases hqs with ⟨pt, hm, hcov⟩
        exact ⟨pt, List.mem_cons_of_mem _ hm, hcov⟩)]
    · rw [if_neg hqs]
      by_cases hq : coveredBy st.canvas_size st.window_size st.buffer.len
          q.1 q.2 i
      · rw [if_pos hq, if_pos ⟨q, List.mem_cons_self q qs, hq⟩]
      · rw [if_neg hq, if_neg (by
          intro hc
          rcases hc with ⟨pt, hm, hcov⟩
          rcases List.mem_cons.mp hm with h | h
          · exact hq (h ▸ hcov)
          · exact hqs ⟨pt, h, hcov⟩)]

lemma clear_pix (p : Platform) (st : CanvasState) (c : Vec4) (i : ℕ)
    (hs : st.hasSurface = true) (hb : p.bufferOk = true) :
    (clear p st c).buffer.pix i =
      if i < st.buffer.len then Vec4.to_argb c else st.buffer.pix i := by
  unfold clear
  rw [hs, hb, if_pos (show (true && true) = true from rfl)]

/-- C1 (code bug): `render_frame` on the 64×64-over-640×640 demo canvas
clears to black but draws only the single blue segment `(7,3)–(12,37)` —
the source binds `(cx, cy) = (62, 53)` without using it and draws no
green, yellow or red segment.  Physical pixel `604*640 + 75` lies in the
10×10 block of logical `(7,3)` and is blue as required, but physical pixel
`105*640 + 625` lies in the 10×10 block of logical `(62,53)` and is still
the black background, although the claim requires a non-background preset
color there. -/
theorem C1_render_frame_missing_segments :
    (render_frame pAllOk stDemo).buffer.pix (604 * 640 + 75) = 0xFF0000FF ∧
    (render_frame pAllOk stDemo).buffer.pix (105 * 640 + 625) = 0xFF000000 := by
  have hrf : render_frame pAllOk stDemo =
      draw_line pAllOk (clear pAllOk stDemo Vec4.black) 7 3 12 37 Vec4.blue :=
    rfl
  have hcs : (clear pAllOk stDemo Vec4.black).canvas_size = (64, 64) := rfl
  have hws : (clear pAllOk stDemo Vec4.black).window_size = (640, 640) := rfl
  have hL : (clear pAllOk stDemo Vec4.black).buffer.len = 640 * 640 := rfl
  have hsv : (clear pAllOk stDemo Vec4.black).hasSurface = true := rfl
  constructor
  · rw [hrf, draw_line_pix _ _ _ _ _ _ _ _ hsv rfl, hcs, hws, hL]
    rw [if_pos (by decide)]
    exact argb_blue
  · rw [hrf, draw_line_pix _ _ _ _ _ _ _ _ hsv rfl, hcs, hws, hL]
    rw [if_neg (by decide)]
    rw [clear_pix _ _ _ _ rfl rfl]
    rw [if_pos (by decide)]
    exact argb_black

/-! ## Frame timing: `src/timing.rs` -/

/-- Embeds the configuration constant `ENABLE_FPS_LIMIT = true` from
`src/timing.rs`. -/
def ENABLE_FPS_LIMIT : Bool := true

/-- Embeds the configuration constant `MAX_FPS = 320.0` from
`src/timing.rs` (note: `main.rs`, a redundant draft of the loop, has its
own separate constant). -/
def MAX_FPS : ℚ := 320

/-- Embeds `FrameTiming`: timestamps are rational wall-clock readings in
seconds; `Instant` subtraction is exact. -/
structure FrameTiming where
  last_frame_time : ℚ
  frame_count_since_last_update : ℕ
  fps_update_time : ℚ

/-- Embeds `FrameTiming::new()` at clock reading `now`. -/
def FrameTiming.new (now : ℚ) : FrameTiming := ⟨now, 0, now⟩

/-- Embeds `Instant::duration_since` in seconds, saturating at zero when
the other instant is later, as the Rust call does. -/
def duration_since (now earlier : ℚ) : ℚ := max (now - earlier) 0

/-- Embeds `FrameTiming::update_fps` at clock reading `now`: increment the
frame counter; if at least one second elapsed since the last FPS sample,
return the real-valued `frames / seconds` and reset the counter and the
sample timestamp; in every case update the last-frame timestamp. -/
def update_fps (ft : FrameTiming) (now : ℚ) : FrameTiming × Option ℚ :=
  let cnt := ft.frame_count_since_last_update + 1
  if 1 ≤ duration_since now ft.fps_update_time then
    (⟨now, 0, now⟩, some ((cnt : ℚ) / duration_since now ft.fps_update_time))
  else
    ({ ft with frame_count_since_last_update := cnt,
               last_frame_time := now }, none)

/-- Embeds `FrameTiming::apply_fps_limit` as the duration slept, a
function of the elapsed time since the last recorded frame: with limiting
enabled, the target inter-frame interval is `1 / MAX_FPS` seconds and the
thread sleeps the remaining difference when the elapsed time is below the
target, else not at all. -/
def apply_fps_limit_sleep (elapsed : ℚ) : ℚ :=
  if ENABLE_FPS_LIMIT then
    if elapsed < 1 / MAX_FPS then 1 / MAX_FPS - elapsed else 0
  else 0

/-- C7: `update_fps` increments the internal frame counter and returns
`some fps` with `fps = framesSinceSample / secondsSinceSample`
(real-valued division) iff at least one second has elapsed since the last
FPS sample, in which case the counter resets to 0 and the sample timestamp
resets to `now`; otherwise it returns `none` and keeps counter and sample
timestamp; in both cases the last-frame timestamp becomes `now`. -/
theorem C7_update_fps (ft : FrameTiming) (now : ℚ)
    (hmono : ft.fps_update_time ≤ now) :
    (update_fps ft now).1.last_frame_time = now ∧
    ((update_fps ft now).2.isSome ↔ 1 ≤ now - ft.fps_update_time) ∧
    (1 ≤ now - ft.fps_update_time →
      (update_fps ft now).2 =
        some (((ft.frame_count_since_last_update + 1 : ℕ) : ℚ) /
          (now - ft.fps_update_time)) ∧
      (update_fps ft now).1.frame_count_since_last_update = 0 ∧
      (update_fps ft now).1.fps_update_time = now) ∧
    (¬ 1 ≤ now - ft.fps_update_time →
      (update_fps ft now).2 = none ∧
      (update_fps ft now).1.frame_count_since_last_update =
        ft.frame_count_since_last_update + 1 ∧
      (update_fps ft now).1.fps_update_time = ft.fps_update_time) := by
  have hd : duration_since now ft.fps_update_time = now - ft.fps_update_time :=
    max_eq_left (by linarith)
  unfold update_fps
  rw [hd]
  by_cases h : 1 ≤ now - ft.fps_update_time
  · rw [if_pos h]
    exact ⟨rfl, by simp [h], fun _ => ⟨rfl, rfl, rfl⟩, fun hc => absurd h hc⟩
  · rw [if_neg h]
    exact ⟨rfl, by simp [h], fun hc => absurd hc h, fun _ => ⟨rfl, rfl, rfl⟩⟩

/-- C7 witness: a timer created at time 0, updated at time 2 — the sample
fires with `fps = 1 / 2`. -/
theorem C7_update_fps_witness :
    (FrameTiming.new 0).fps_update_time ≤ (2 : ℚ) ∧
    ((update_fps (FrameTiming.new 0) 2).1.last_frame_time = 2 ∧
     ((update_fps (FrameTiming.new 0) 2).2.isSome ↔
       1 ≤ (2 : ℚ) - (FrameTiming.new 0).fps_update_time) ∧
     (1 ≤ (2 : ℚ) - (FrameTiming.new 0).fps_update_time →
       (update_fps (FrameTiming.new 0) 2).2 =
         some ((((FrameTiming.new 0).frame_count_since_last_update + 1 : ℕ) : ℚ) /
           ((2 : ℚ) - (FrameTiming.new 0).fps_update_time)) ∧
       (update_fps (FrameTiming.new 0) 2).1.frame_count_since_last_update = 0 ∧
       (update_fps (FrameTiming.new 0) 2).1.fps_update_time = 2) ∧
     (¬ 1 ≤ (2 : ℚ) - (FrameTiming.new 0).fps_update_time →
       (update_fps (FrameTiming.new 0) 2).2 = none ∧
       (update_fps (FrameTiming.new 0) 2).1.frame_count_since_last_update =
         (FrameTiming.new 0).frame_count_since_last_update + 1 ∧
       (update_fps (FrameTiming.new 0) 2).1.fps_update_time =
         (FrameTiming.new 0).fps_update_time)) :=
  ⟨zero_le_two, C7_update_fps (FrameTiming.new 0) 2 zero_le_two⟩

/-- C8 counterexample: the frame-rate ceiling in `src/timing.rs` is
`MAX_FPS = 320`, not `240` as claimed: with no elapsed time the sleep is
`1/320` of a second, not `1/240`. -/
theorem C8_max_fps_320_not_240 :
    MAX_FPS = 320 ∧ ¬ MAX_FPS = 240 ∧
    apply_fps_limit_sleep 0 = 1 / 320 ∧
    ¬ apply_fps_limit_sleep 0 = 1 / 240 := by
  have hs : apply_fps_limit_sleep 0 = 1 / 320 := by
    unfold apply_fps_limit_sleep ENABLE_FPS_LIMIT MAX_FPS
    rw [if_pos (show (true : Bool) = true from rfl),
      if_pos (show (0 : ℚ) < 1 / 320 from by norm_num)]
    norm_num
  refine ⟨rfl, by unfold MAX_FPS; norm_num, hs, ?_⟩
  rw [hs]
  norm_num

/-- C8 (amended): with frame-rate limiting enabled and `MAX_FPS = 320`,
`apply_fps_limit` computes the target inter-frame interval `1/320` s and,
when the elapsed time since the last recorded frame is smaller, sleeps for
exactly the remaining difference; the sleep never exceeds one target
interval, and elapsed time plus sleep is at least `1/320` s, so two
consecutive pacing calls with negligible intervening work are separated by
at least `1/320` seconds. -/
theorem C8_pacing_floor (e : ℚ) (he : 0 ≤ e) :
    (e < 1 / MAX_FPS → apply_fps_limit_sleep e = 1 / MAX_FPS - e) ∧
    (¬ e < 1 / MAX_FPS → apply_fps_limit_sleep e = 0) ∧
    0 ≤ apply_fps_limit_sleep e ∧
    apply_fps_limit_sleep e ≤ 1 / MAX_FPS ∧
    1 / MAX_FPS ≤ e + apply_fps_limit_sleep e := by
  have hM : (0 : ℚ) < 1 / MAX_FPS := by
    unfold MAX_FPS
    norm_num
  unfold apply_fps_limit_sleep
  rw [if_pos (show ENABLE_FPS_LIMIT = true from rfl)]
  by_cases h : e < 1 / MAX_FPS
  · rw [if_pos h]
    exact ⟨fun _ => rfl, fun hc => absurd h hc, by linarith, by linarith,
      by linarith⟩
  · rw [if_neg h]
    exact ⟨fun hc => absurd hc h, fun _ => rfl, le_refl 0, by linarith,
      by push_neg at h; linarith⟩

/-- C8 amended-claim witness: at zero elapsed time the pacing sleep is the
full `1/320`-second interval. -/
theorem C8_pacing_floor_witness :
    (0 : ℚ) ≤ 0 ∧
    (((0 : ℚ) < 1 / MAX_FPS → apply_fps_limit_sleep 0 = 1 / MAX_FPS - 0) ∧
     (¬ (0 : ℚ) < 1 / MAX_FPS → apply_fps_limit_sleep 0 = 0) ∧
     0 ≤ apply_fps_limit_sleep 0 ∧
     apply_fps_limit_sleep 0 ≤ 1 / MAX_FPS ∧
     1 / MAX_FPS ≤ 0 + apply_fps_limit_sleep 0) :=
  ⟨le_refl 0, C8_pacing_floor 0 (le_refl 0)⟩
